import Mathlib

/-!
Shallow embedding of the PrivyPlay confidential dice game.

The on-chain contract (`contracts/PrivyPlay.sol`) keeps, per player, five
ciphertext handles (`balance`, `lastRoll`, `lastOutcome`, `lastReward`,
`roundEligible`) plus one plaintext flag (`gameActive`).  The FHE engine is
modelled as a handle heap: every engine operation allocates a fresh handle
whose plaintext value is recorded in `heap`, and the two grant calls
(`allowThis` / `allow`) append to the two access-control lists.  Machine
integers are `Nat` reduced modulo `2 ^ 64` (euint64) or `2 ^ 8` (euint8),
exactly where the engine's wrapping arithmetic applies.  A transition that
reverts returns `.error`; the `run*` wrappers give the post-transaction
state, which on revert is the untouched pre-state.
-/

namespace PrivyPlay

/-- Modulus of the euint64 ciphertext domain. -/
def two64 : Nat := 2 ^ 64

/-- Modulus of the euint8 ciphertext domain. -/
def two8 : Nat := 2 ^ 8

/-- Wei per ETH, the divisor in `buyPoints` (`1 ether` in Solidity). -/
def weiPerEth : Nat := 10 ^ 18

/-- Contract constant `POINTS_PER_ETH`. -/
def POINTS_PER_ETH : Nat := 1000000

/-- Contract constant `PLAY_COST`. -/
def PLAY_COST : Nat := 100

/-- Contract constant `WIN_REWARD`. -/
def WIN_REWARD : Nat := 1000

/-- State of the FHE engine: `next` is the next fresh handle, `heap` maps a
handle to the plaintext of the ciphertext it refers to (handle `0` is the
never-written sentinel, of plaintext `0`), `aclThis` lists handles granted
to the contract, `aclUser` lists (handle, account) decryption grants. -/
structure Fhe where
  next : Nat
  heap : Nat → Nat
  aclThis : List Nat
  aclUser : List (Nat × Nat)

/-- Plaintext value behind a handle. -/
def Fhe.val (s : Fhe) (h : Nat) : Nat := s.heap h

/-- Allocate a fresh handle carrying plaintext `v`. -/
def Fhe.alloc (s : Fhe) (v : Nat) : Fhe × Nat :=
  (⟨s.next + 1, fun h => if h = s.next then v else s.heap h, s.aclThis, s.aclUser⟩, s.next)

/-- Engine `FHE.asEuint64`: trivial encryption of a plaintext, reduced to
the 64-bit domain. -/
def Fhe.asEuint64 (s : Fhe) (v : Nat) : Fhe × Nat := s.alloc (v % two64)

/-- Engine `FHE.asEuint8`. -/
def Fhe.asEuint8 (s : Fhe) (v : Nat) : Fhe × Nat := s.alloc (v % two8)

/-- Engine `FHE.add` on euint64: wrapping 64-bit addition. -/
def Fhe.add64 (s : Fhe) (x y : Nat) : Fhe × Nat := s.alloc ((s.val x + s.val y) % two64)

/-- Engine `FHE.add` on euint8: wrapping 8-bit addition. -/
def Fhe.add8 (s : Fhe) (x y : Nat) : Fhe × Nat := s.alloc ((s.val x + s.val y) % two8)

/-- Engine `FHE.sub` on euint64: wrapping 64-bit subtraction. -/
def Fhe.sub64 (s : Fhe) (x y : Nat) : Fhe × Nat :=
  s.alloc ((s.val x + (two64 - s.val y)) % two64)

/-- Engine `FHE.ge`: encrypted boolean `1` iff `val x ≥ val y`. -/
def Fhe.ge (s : Fhe) (x y : Nat) : Fhe × Nat :=
  s.alloc (if s.val y ≤ s.val x then 1 else 0)

/-- Engine `FHE.eq` on encrypted booleans. -/
def Fhe.eqb (s : Fhe) (x y : Nat) : Fhe × Nat :=
  s.alloc (if s.val x = s.val y then 1 else 0)

/-- Engine `FHE.select`: homomorphic ternary on the encrypted condition. -/
def Fhe.select (s : Fhe) (c x y : Nat) : Fhe × Nat :=
  s.alloc (if s.val c = 1 then s.val x else s.val y)

/-- Engine `FHE.randEuint8 bound`: a fresh encrypted draw in `[0, bound)`.
The randomness oracle is the extra argument `r`; the stored plaintext is
`r % bound`, which ranges over exactly the engine's output domain. -/
def Fhe.randEuint8 (s : Fhe) (bound r : Nat) : Fhe × Nat := s.alloc (r % bound)

/-- Engine `FHE.fromExternal` on a caller-supplied encrypted boolean whose
input proof verified; the plaintext is the caller's guess bit. -/
def Fhe.fromExternalEbool (s : Fhe) (g : Bool) : Fhe × Nat :=
  s.alloc (if g then 1 else 0)

/-- Engine `FHE.allowThis`: grant the contract decryption of `h`. -/
def Fhe.allowThis (s : Fhe) (h : Nat) : Fhe :=
  { s with aclThis := h :: s.aclThis }

/-- Engine `FHE.allow`: grant account `u` decryption of `h`. -/
def Fhe.allow (s : Fhe) (h u : Nat) : Fhe :=
  { s with aclUser := (h, u) :: s.aclUser }

/-- Handle `h` carries a grant for the contract itself. -/
def Fhe.grantedThis (s : Fhe) (h : Nat) : Prop := h ∈ s.aclThis

/-- Handle `h` carries a grant for external account `u`. -/
def Fhe.grantedUser (s : Fhe) (h u : Nat) : Prop := (h, u) ∈ s.aclUser

instance (s : Fhe) (h : Nat) : Decidable (s.grantedThis h) := by
  unfold Fhe.grantedThis; infer_instance

instance (s : Fhe) (h u : Nat) : Decidable (s.grantedUser h u) := by
  unfold Fhe.grantedUser; infer_instance

/-- Engine state at deployment: handle `0` is the sentinel, nothing granted. -/
def Fhe.init : Fhe := ⟨1, fun _ => 0, [], []⟩

/-- Per-player record of the contract: the five ciphertext handles and the
plaintext `gameActive` flag (the Solidity mappings default every handle to
the sentinel `0` and the flag to `false`). -/
structure Account where
  balance : Nat
  lastRoll : Nat
  lastOutcome : Nat
  lastReward : Nat
  roundEligible : Nat
  gameActive : Bool
deriving DecidableEq

/-- Fresh account: all handles are the sentinel, no round active. -/
def Account.init : Account := ⟨0, 0, 0, 0, 0, false⟩

/-- Every handle of the record points below the heap frontier. -/
def Account.wf (a : Account) (s : Fhe) : Prop :=
  a.balance < s.next ∧ a.lastRoll < s.next ∧ a.lastOutcome < s.next ∧
    a.lastReward < s.next ∧ a.roundEligible < s.next

instance (a : Account) (s : Fhe) : Decidable (a.wf s) := by
  unfold Account.wf; infer_instance

/-- Revert reasons of the three transitions (`require` messages and the
proof-verification failure of `FHE.fromExternal`). -/
inductive PlayError where
  | noEthSent
  | amountTooSmall
  | pointsOverflow
  | gameAlreadyActive
  | noActiveGame
  | invalidProof
deriving DecidableEq, Repr

/-- Transition `buyPoints` of `PrivyPlay.sol`: convert `msgValue` wei into
encrypted points and add them to the caller's balance. -/
def buyPoints (msgValue sender : Nat) (a : Account) (s : Fhe) :
    Except PlayError (Account × Fhe) :=
  if msgValue = 0 then .error .noEthSent else
  let pointsValue := msgValue * POINTS_PER_ETH / weiPerEth
  if pointsValue = 0 then .error .amountTooSmall else
  if two64 - 1 < pointsValue then .error .pointsOverflow else
  let (s, encryptedPoints) := s.asEuint64 pointsValue
  let (s, newBalance) := s.add64 a.balance encryptedPoints
  let a := { a with balance := newBalance }
  let s := s.allowThis a.balance
  let s := s.allow a.balance sender
  .ok (a, s)

/-- Transition `startGame` of `PrivyPlay.sol`: charge `PLAY_COST` when the
balance suffices (decided homomorphically) and roll an encrypted dice.
`r` is the randomness oracle fed to `FHE.randEuint8 6`. -/
def startGame (r sender : Nat) (a : Account) (s : Fhe) :
    Except PlayError (Account × Fhe) :=
  if a.gameActive then .error .gameAlreadyActive else
  let a := { a with gameActive := true }
  let (s, cost) := s.asEuint64 PLAY_COST
  let (s, hasEnough) := s.ge a.balance cost
  let (s, debited) := s.sub64 a.balance cost
  let (s, newBalance) := s.select hasEnough debited a.balance
  let a := { a with balance := newBalance, roundEligible := hasEnough }
  let (s, rnd) := s.randEuint8 6 r
  let (s, one) := s.asEuint8 1
  let (s, diceRoll) := s.add8 rnd one
  let a := { a with lastRoll := diceRoll }
  let s := s.allowThis a.balance
  let s := s.allow a.balance sender
  let s := s.allowThis a.roundEligible
  let s := s.allowThis a.lastRoll
  let s := s.allow a.lastRoll sender
  .ok (a, s)

/-- Transition `submitGuess` of `PrivyPlay.sol`: import the encrypted guess
(reverting on a failed input proof), compare it with the encrypted
`lastRoll ≥ 4` bit, and pay `WIN_REWARD` iff the guess matches and the
round was eligible. -/
def submitGuess (guess proofOk : Bool) (sender : Nat) (a : Account) (s : Fhe) :
    Except PlayError (Account × Fhe) :=
  if !a.gameActive then .error .noActiveGame else
  let a := { a with gameActive := false }
  if !proofOk then .error .invalidProof else
  let (s, encryptedGuess) := s.fromExternalEbool guess
  let (s, four) := s.asEuint8 4
  let (s, isBig) := s.ge a.lastRoll four
  let (s, isWin) := s.eqb isBig encryptedGuess
  let (s, winAmount) := s.asEuint64 WIN_REWARD
  let (s, zeroA) := s.asEuint64 0
  let (s, rewardIfWin) := s.select isWin winAmount zeroA
  let (s, zeroB) := s.asEuint64 0
  let (s, reward) := s.select a.roundEligible rewardIfWin zeroB
  let (s, newBalance) := s.add64 a.balance reward
  let a := { a with balance := newBalance, lastOutcome := isWin, lastReward := reward }
  let s := s.allowThis a.balance
  let s := s.allow a.balance sender
  let s := s.allowThis a.lastOutcome
  let s := s.allow a.lastOutcome sender
  let s := s.allowThis a.lastReward
  let s := s.allow a.lastReward sender
  .ok (a, s)

/-- Post-transaction state of `buyPoints`: a revert rolls everything back. -/
def runBuyPoints (msgValue sender : Nat) (a : Account) (s : Fhe) : Account × Fhe :=
  match buyPoints msgValue sender a s with
  | .ok res => res
  | .error _ => (a, s)

/-- Post-transaction state of `startGame`. -/
def runStartGame (r sender : Nat) (a : Account) (s : Fhe) : Account × Fhe :=
  match startGame r sender a s with
  | .ok res => res
  | .error _ => (a, s)

/-- Post-transaction state of `submitGuess`. -/
def runSubmitGuess (guess proofOk : Bool) (sender : Nat) (a : Account) (s : Fhe) :
    Account × Fhe :=
  match submitGuess guess proofOk sender a s with
  | .ok res => res
  | .error _ => (a, s)

/-- Decrypted view of the four readable fields held by the client page:
`balance` and `lastReward` default to `0`, `lastRoll` and `lastOutcome`
to absent, mirroring the React state of `GameApp`. -/
structure PlayerView where
  balance : Nat
  lastRoll : Option Nat
  lastOutcome : Option Bool
  lastReward : Nat
deriving DecidableEq

/-- Batch built by `refreshPlayerData`: the four readable handles with
every sentinel (`ZERO_HASH`, modelled as handle `0`) filtered out. -/
def handlesToDecrypt (hb hr ho hw : Nat) : List Nat :=
  [hb, hr, ho, hw].filter (fun h => h ≠ 0)

/-- Decryption core of the client `refreshPlayerData`: `hb`, `hr`, `ho`,
`hw` are the handles read from `getBalance`, `getLastRoll`,
`getLastOutcome` and `getLastReward`; `resp` is the decrypt-service
response mapping; `prev` is the view held before the refresh (the
outcome field keeps its previous value when the response lacks its
handle, as in the source).  Returns the new view together with the batch
sent to the service — `none` when no request is issued at all. -/
def refreshPlayerData (prev : PlayerView) (hb hr ho hw : Nat)
    (resp : Nat → Option Nat) : PlayerView × Option (List Nat) :=
  if (handlesToDecrypt hb hr ho hw).isEmpty then
    (⟨0, none, none, 0⟩, none)
  else
    let balance := if hb ≠ 0 then (resp hb).getD 0 else 0
    let lastRoll := if hr ≠ 0 then resp hr else none
    let lastOutcome :=
      if ho ≠ 0 then
        (match resp ho with
          | some v => some (decide (v = 1))
          | none => prev.lastOutcome)
      else none
    let lastReward := if hw ≠ 0 then (resp hw).getD 0 else 0
    (⟨balance, lastRoll, lastOutcome, lastReward⟩, some (handlesToDecrypt hb hr ho hw))

/-- Scenario of the repository's mock test: one ETH buys exactly a million
points on a fresh account. -/
theorem scenario_fund : (runBuyPoints (10 ^ 18) 5 Account.init Fhe.init).2.val
    (runBuyPoints (10 ^ 18) 5 Account.init Fhe.init).1.balance = 1000000 := by
  decide

/-- Characterisation of a successful `buyPoints`: under the three passing
`require`s the call succeeds, only `balance` is rebound, the new balance
plaintext is the wrapping 64-bit sum, old handles keep their plaintexts,
and the new balance handle is granted to the contract and the caller. -/
theorem buyPoints_ok (msgValue sender : Nat) (a : Account) (s : Fhe)
    (hwf : a.wf s)
    (h0 : ¬ msgValue = 0)
    (hp : ¬ msgValue * POINTS_PER_ETH / weiPerEth = 0)
    (ho : ¬ two64 - 1 < msgValue * POINTS_PER_ETH / weiPerEth) :
    (buyPoints msgValue sender a s).isOk = true ∧
    (runBuyPoints msgValue sender a s).1.lastRoll = a.lastRoll ∧
    (runBuyPoints msgValue sender a s).1.lastOutcome = a.lastOutcome ∧
    (runBuyPoints msgValue sender a s).1.lastReward = a.lastReward ∧
    (runBuyPoints msgValue sender a s).1.roundEligible = a.roundEligible ∧
    (runBuyPoints msgValue sender a s).1.gameActive = a.gameActive ∧
    (runBuyPoints msgValue sender a s).2.val (runBuyPoints msgValue sender a s).1.balance =
      (s.val a.balance + msgValue * POINTS_PER_ETH / weiPerEth) % two64 ∧
    (∀ x, x < s.next → (runBuyPoints msgValue sender a s).2.val x = s.val x) ∧
    (runBuyPoints msgValue sender a s).2.next = s.next + 2 ∧
    (runBuyPoints msgValue sender a s).1.wf (runBuyPoints msgValue sender a s).2 ∧
    (runBuyPoints msgValue sender a s).2.grantedThis (runBuyPoints msgValue sender a s).1.balance ∧
    (runBuyPoints msgValue sender a s).2.grantedUser
      (runBuyPoints msgValue sender a s).1.balance sender := by
  obtain ⟨hwb, hwr, hwo, hww, hwe⟩ := hwf
  have hb1 : ¬ a.balance = s.next := by omega
  have hmod : msgValue * POINTS_PER_ETH / weiPerEth % two64 =
      msgValue * POINTS_PER_ETH / weiPerEth := by
    apply Nat.mod_eq_of_lt
    have h2 : 0 < two64 := by decide
    omega
  have hpres : ∀ x, x < s.next → (runBuyPoints msgValue sender a s).2.val x = s.val x := by
    intro x hx
    have hx1 : ¬ x = s.next := by omega
    have hx2 : ¬ x = s.next + 1 := by omega
    simp [buyPoints, runBuyPoints, h0, hp, ho,
      Fhe.asEuint64, Fhe.add64, Fhe.alloc, Fhe.val, Fhe.allowThis, Fhe.allow, hx1, hx2]
  refine ⟨?_, ?_, ?_, ?_, ?_, ?_, ?_, hpres, ?_, ?_, ?_, ?_⟩ <;>
    simp [buyPoints, runBuyPoints, h0, hp, ho, hb1, hmod, Account.wf,
      Fhe.asEuint64, Fhe.add64, Fhe.alloc, Fhe.val, Fhe.allowThis, Fhe.allow,
      Fhe.grantedThis, Fhe.grantedUser, Except.isOk, Except.toBool]
  omega

/-- Characterisation of a successful `startGame`: in the Idle state the
call succeeds, the round flag flips to `true`, `lastOutcome` and
`lastReward` keep their handles, the balance is debited `PLAY_COST` iff
it suffices (decided in ciphertext space), `roundEligible` records that
decision, the dice plaintext is `r % 6 + 1`, old handles keep their
plaintexts, and the grants of the source are in place — note the source
gives `roundEligible` only the contract grant, not the caller grant. -/
theorem startGame_ok (r sender : Nat) (a : Account) (s : Fhe)
    (hwf : a.wf s)
    (hIdle : a.gameActive = false) :
    (startGame r sender a s).isOk = true ∧
    (runStartGame r sender a s).1.gameActive = true ∧
    (runStartGame r sender a s).1.lastOutcome = a.lastOutcome ∧
    (runStartGame r sender a s).1.lastReward = a.lastReward ∧
    (runStartGame r sender a s).2.val (runStartGame r sender a s).1.balance =
      (if PLAY_COST ≤ s.val a.balance
        then (s.val a.balance + (two64 - PLAY_COST)) % two64
        else s.val a.balance) ∧
    (runStartGame r sender a s).2.val (runStartGame r sender a s).1.roundEligible =
      (if PLAY_COST ≤ s.val a.balance then 1 else 0) ∧
    (runStartGame r sender a s).2.val (runStartGame r sender a s).1.lastRoll = r % 6 + 1 ∧
    (∀ x, x < s.next → (runStartGame r sender a s).2.val x = s.val x) ∧
    (runStartGame r sender a s).2.next = s.next + 7 ∧
    (runStartGame r sender a s).1.wf (runStartGame r sender a s).2 ∧
    (runStartGame r sender a s).2.grantedThis (runStartGame r sender a s).1.balance ∧
    (runStartGame r sender a s).2.grantedUser (runStartGame r sender a s).1.balance sender ∧
    (runStartGame r sender a s).2.grantedThis (runStartGame r sender a s).1.roundEligible ∧
    (runStartGame r sender a s).2.grantedThis (runStartGame r sender a s).1.lastRoll ∧
    (runStartGame r sender a s).2.grantedUser (runStartGame r sender a s).1.lastRoll sender := by
  obtain ⟨hwb, hwr, hwo, hww, hwe⟩ := hwf
  have hb1 : ¬ a.balance = s.next := by omega
  have hb2 : ¬ a.balance = s.next + 1 := by omega
  have hb3 : ¬ a.balance = s.next + 2 := by omega
  have hcost : PLAY_COST % two64 = PLAY_COST := by decide
  have hone : 1 % two8 = 1 := by decide
  have hdice : (r % 6 + 1) % two8 = r % 6 + 1 := by
    apply Nat.mod_eq_of_lt
    have h6 : r % 6 < 6 := Nat.mod_lt _ (by omega)
    simp [two8]
    omega
  have hpres : ∀ x, x < s.next → (runStartGame r sender a s).2.val x = s.val x := by
    intro x hx
    have hx0 : ¬ x = s.next := by omega
    have hx1 : ¬ x = s.next + 1 := by omega
    have hx2 : ¬ x = s.next + 2 := by omega
    have hx3 : ¬ x = s.next + 3 := by omega
    have hx4 : ¬ x = s.next + 4 := by omega
    have hx5 : ¬ x = s.next + 5 := by omega
    have hx6 : ¬ x = s.next + 6 := by omega
    simp [startGame, runStartGame, hIdle, Fhe.asEuint64, Fhe.asEuint8, Fhe.ge,
      Fhe.sub64, Fhe.select, Fhe.randEuint8, Fhe.add8, Fhe.alloc, Fhe.val,
      Fhe.allowThis, Fhe.allow, hx0, hx1, hx2, hx3, hx4, hx5, hx6]
  by_cases hc : PLAY_COST ≤ s.heap a.balance <;>
    refine ⟨?_, ?_, ?_, ?_, ?_, ?_, ?_, hpres, ?_, ?_, ?_, ?_, ?_, ?_, ?_⟩ <;>
    simp [startGame, runStartGame, hIdle, hb1, hb2, hb3, hc, hcost, hone, hdice,
      Account.wf, Fhe.asEuint64, Fhe.asEuint8, Fhe.ge, Fhe.sub64, Fhe.select,
      Fhe.randEuint8, Fhe.add8, Fhe.alloc, Fhe.val, Fhe.allowThis, Fhe.allow,
      Fhe.grantedThis, Fhe.grantedUser, Except.isOk, Except.toBool] <;>
    omega

set_option maxHeartbeats 2000000 in
/-- Characterisation of a successful `submitGuess` (valid input proof): in
the RoundPending state the call succeeds, the round flag flips to `false`,
`lastOutcome` records whether the guess matched the `lastRoll ≥ 4` bit,
`lastReward` is `WIN_REWARD` exactly when the guess matched and the round
was eligible and `0` otherwise, the reward is credited to the balance by
wrapping 64-bit addition, old handles keep their plaintexts, and the
three rebound handles are granted to the contract and the caller. -/
theorem submitGuess_ok (guess : Bool) (sender : Nat) (a : Account) (s : Fhe)
    (hwf : a.wf s)
    (hActive : a.gameActive = true) :
    (submitGuess guess true sender a s).isOk = true ∧
    (runSubmitGuess guess true sender a s).1.gameActive = false ∧
    (runSubmitGuess guess true sender a s).1.roundEligible = a.roundEligible ∧
    (runSubmitGuess guess true sender a s).2.val
        (runSubmitGuess guess true sender a s).1.lastOutcome =
      (if (4 ≤ s.val a.lastRoll) ↔ guess = true then 1 else 0) ∧
    (runSubmitGuess guess true sender a s).2.val
        (runSubmitGuess guess true sender a s).1.lastReward =
      (if s.val a.roundEligible = 1 ∧ ((4 ≤ s.val a.lastRoll) ↔ guess = true)
        then WIN_REWARD else 0) ∧
    (runSubmitGuess guess true sender a s).2.val
        (runSubmitGuess guess true sender a s).1.balance =
      (s.val a.balance +
        (if s.val a.roundEligible = 1 ∧ ((4 ≤ s.val a.lastRoll) ↔ guess = true)
          then WIN_REWARD else 0)) % two64 ∧
    (∀ x, x < s.next → (runSubmitGuess guess true sender a s).2.val x = s.val x) ∧
    (runSubmitGuess guess true sender a s).2.next = s.next + 10 ∧
    (runSubmitGuess guess true sender a s).1.wf (runSubmitGuess guess true sender a s).2 ∧
    (runSubmitGuess guess true sender a s).2.grantedThis
      (runSubmitGuess guess true sender a s).1.balance ∧
    (runSubmitGuess guess true sender a s).2.grantedUser
      (runSubmitGuess guess true sender a s).1.balance sender ∧
    (runSubmitGuess guess true sender a s).2.grantedThis
      (runSubmitGuess guess true sender a s).1.lastOutcome ∧
    (runSubmitGuess guess true sender a s).2.grantedUser
      (runSubmitGuess guess true sender a s).1.lastOutcome sender ∧
    (runSubmitGuess guess true sender a s).2.grantedThis
      (runSubmitGuess guess true sender a s).1.lastReward ∧
    (runSubmitGuess guess true sender a s).2.grantedUser
      (runSubmitGuess guess true sender a s).1.lastReward sender := by
  obtain ⟨hwb, hwr, hwo, hww, hwe⟩ := hwf
  have hr0 : ¬ a.lastRoll = s.next := by omega
  have hr1 : ¬ a.lastRoll = s.next + 1 := by omega
  have he0 : ¬ a.roundEligible = s.next := by omega
  have he1 : ¬ a.roundEligible = s.next + 1 := by omega
  have he2 : ¬ a.roundEligible = s.next + 2 := by omega
  have he3 : ¬ a.roundEligible = s.next + 3 := by omega
  have he4 : ¬ a.roundEligible = s.next + 4 := by omega
  have he5 : ¬ a.roundEligible = s.next + 5 := by omega
  have he6 : ¬ a.roundEligible = s.next + 6 := by omega
  have he7 : ¬ a.roundEligible = s.next + 7 := by omega
  have hby0 : ¬ a.balance = s.next := by omega
  have hby1 : ¬ a.balance = s.next + 1 := by omega
  have hby2 : ¬ a.balance = s.next + 2 := by omega
  have hby3 : ¬ a.balance = s.next + 3 := by omega
  have hby4 : ¬ a.balance = s.next + 4 := by omega
  have hby5 : ¬ a.balance = s.next + 5 := by omega
  have hby6 : ¬ a.balance = s.next + 6 := by omega
  have hby7 : ¬ a.balance = s.next + 7 := by omega
  have hby8 : ¬ a.balance = s.next + 8 := by omega
  have hfour : 4 % two8 = 4 := by decide
  have hwinr : (1000 : Nat) % two64 = 1000 := by decide
  have ha1 : ¬ s.next = s.next + 1 := by omega
  have ha2 : ¬ s.next = s.next + 1 + 1 := by omega
  have ha3 : ¬ s.next + 1 = s.next + 1 + 1 := by omega
  have hzero : 0 % two64 = 0 := by decide
  have hpres : ∀ x, x < s.next → (runSubmitGuess guess true sender a s).2.val x = s.val x := by
    intro x hx
    have hx0 : ¬ x = s.next := by omega
    have hx1 : ¬ x = s.next + 1 := by omega
    have hx2 : ¬ x = s.next + 2 := by omega
    have hx3 : ¬ x = s.next + 3 := by omega
    have hx4 : ¬ x = s.next + 4 := by omega
    have hx5 : ¬ x = s.next + 5 := by omega
    have hx6 : ¬ x = s.next + 6 := by omega
    have hx7 : ¬ x = s.next + 7 := by omega
    have hx8 : ¬ x = s.next + 8 := by omega
    have hx9 : ¬ x = s.next + 9 := by omega
    simp [submitGuess, runSubmitGuess, hActive, Fhe.fromExternalEbool, Fhe.asEuint8,
      Fhe.asEuint64, Fhe.ge, Fhe.eqb, Fhe.select, Fhe.add64, Fhe.alloc, Fhe.val,
      Fhe.allowThis, Fhe.allow, hx0, hx1, hx2, hx3, hx4, hx5, hx6, hx7, hx8, hx9]
  cases guess <;> by_cases hbig : 4 ≤ s.heap a.lastRoll <;>
    by_cases helig : s.heap a.roundEligible = 1 <;>
    refine ⟨?_, ?_, ?_, ?_, ?_, ?_, hpres, ?_, ?_, ?_, ?_, ?_, ?_, ?_, ?_⟩ <;>
    simp [submitGuess, runSubmitGuess, hActive, hr0, hr1, he0, he1, he2, he3, he4,
      he5, he6, he7, hby0, hby1, hby2, hby3, hby4, hby5, hby6, hby7, hby8,
      hbig, helig, hfour, hwinr, hzero, ha1, ha2, ha3, WIN_REWARD, Account.wf,
      Fhe.fromExternalEbool, Fhe.asEuint8, Fhe.asEuint64, Fhe.ge, Fhe.eqb,
      Fhe.select, Fhe.add64, Fhe.alloc, Fhe.val, Fhe.allowThis, Fhe.allow,
      Fhe.grantedThis, Fhe.grantedUser, Except.isOk, Except.toBool] <;>
    omega

/-- Membership in the decrypt batch: any of the four handles that is not
the sentinel survives the filter. -/
theorem mem_handlesToDecrypt (hb hr ho hw h : Nat) (hmem : h ∈ [hb, hr, ho, hw])
    (hne : h ≠ 0) : h ∈ handlesToDecrypt hb hr ho hw := by
  simp only [handlesToDecrypt, List.mem_filter, decide_eq_true_eq]
  exact ⟨hmem, hne⟩

/-- The decrypt batch is non-empty as soon as one handle is non-sentinel. -/
theorem handlesToDecrypt_not_empty (hb hr ho hw h : Nat) (hmem : h ∈ [hb, hr, ho, hw])
    (hne : h ≠ 0) : (handlesToDecrypt hb hr ho hw).isEmpty = false := by
  have hmem2 := mem_handlesToDecrypt hb hr ho hw h hmem hne
  cases hcase : handlesToDecrypt hb hr ho hw with
  | nil => rw [hcase] at hmem2; simp at hmem2
  | cons x xs => rfl

/-- Claim C1: in a round resolution with a verified proof, if the round
was eligible and the submitted guess equals the `lastRoll ≥ 4` bit then
`lastOutcome` decrypts to true, `lastReward` to `WIN_REWARD`, and
`WIN_REWARD` is credited to the balance (64-bit wrapping credit); in
every other case `lastReward` decrypts to `0` and the balance is
unchanged. -/
theorem submitGuess_win_determinism (guess : Bool) (sender : Nat) (a : Account) (s : Fhe)
    (hwf : a.wf s) (hActive : a.gameActive = true)
    (hbal : s.val a.balance < two64) :
    (submitGuess guess true sender a s).isOk = true ∧
    (s.val a.roundEligible = 1 → guess = decide (4 ≤ s.val a.lastRoll) →
      (runSubmitGuess guess true sender a s).2.val
          (runSubmitGuess guess true sender a s).1.lastOutcome = 1 ∧
      (runSubmitGuess guess true sender a s).2.val
          (runSubmitGuess guess true sender a s).1.lastReward = WIN_REWARD ∧
      (runSubmitGuess guess true sender a s).2.val
          (runSubmitGuess guess true sender a s).1.balance =
        (s.val a.balance + WIN_REWARD) % two64) ∧
    (¬ (s.val a.roundEligible = 1 ∧ guess = decide (4 ≤ s.val a.lastRoll)) →
      (runSubmitGuess guess true sender a s).2.val
          (runSubmitGuess guess true sender a s).1.lastReward = 0 ∧
      (runSubmitGuess guess true sender a s).2.val
          (runSubmitGuess guess true sender a s).1.balance = s.val a.balance) := by
  obtain ⟨hok, _, _, houtcome, hreward, hbalance, _, _, _, _, _, _, _, _, _⟩ :=
    submitGuess_ok guess sender a s hwf hActive
  refine ⟨hok, ?_, ?_⟩
  · intro h1 h2
    have hiff : (4 ≤ s.val a.lastRoll) ↔ guess = true := by
      subst h2
      by_cases hc : 4 ≤ s.val a.lastRoll <;> simp [hc]
    rw [if_pos hiff] at houtcome
    rw [if_pos ⟨h1, hiff⟩] at hreward hbalance
    exact ⟨houtcome, hreward, hbalance⟩
  · intro hneg
    have hiff2 : ¬ (s.val a.roundEligible = 1 ∧ ((4 ≤ s.val a.lastRoll) ↔ guess = true)) := by
      rintro ⟨hh1, hh2⟩
      exact hneg ⟨hh1, by cases guess <;> simp_all⟩
    rw [if_neg hiff2] at hreward hbalance
    refine ⟨hreward, ?_⟩
    rw [hbalance, Nat.add_zero, Nat.mod_eq_of_lt hbal]

/-- Claim C1 witness: a concrete eligible account with roll 5 and a big
guess wins exactly `WIN_REWARD`. -/
theorem submitGuess_win_determinism_witness :
    (submitGuess true true 7 (⟨3, 1, 0, 0, 2, true⟩ : Account)
      (⟨4, fun h => if h = 1 then 5 else if h = 2 then 1 else if h = 3 then 500 else 0,
        [], []⟩ : Fhe)).isOk = true ∧
    (runSubmitGuess true true 7 (⟨3, 1, 0, 0, 2, true⟩ : Account)
        (⟨4, fun h => if h = 1 then 5 else if h = 2 then 1 else if h = 3 then 500 else 0,
          [], []⟩ : Fhe)).2.val
        (runSubmitGuess true true 7 (⟨3, 1, 0, 0, 2, true⟩ : Account)
          (⟨4, fun h => if h = 1 then 5 else if h = 2 then 1 else if h = 3 then 500 else 0,
            [], []⟩ : Fhe)).1.lastReward = WIN_REWARD := by
  obtain ⟨hok, hwin, _⟩ := submitGuess_win_determinism true 7
    (⟨3, 1, 0, 0, 2, true⟩ : Account)
    (⟨4, fun h => if h = 1 then 5 else if h = 2 then 1 else if h = 3 then 500 else 0,
      [], []⟩ : Fhe) (by decide) rfl (by decide)
  exact ⟨hok, (hwin (by decide) (by decide)).2.1⟩

/-- Claim C2: starting a round with a balance below `PLAY_COST` still
succeeds, deducts nothing, stores the encrypted false into
`roundEligible`, and the following resolution pays `lastReward = 0` no
matter what was guessed. -/
theorem startGame_insufficient_funds_safe (r sender : Nat) (a : Account) (s : Fhe)
    (hwf : a.wf s) (hIdle : a.gameActive = false)
    (hlow : s.val a.balance < PLAY_COST) :
    (startGame r sender a s).isOk = true ∧
    (runStartGame r sender a s).2.val (runStartGame r sender a s).1.balance =
      s.val a.balance ∧
    (runStartGame r sender a s).2.val (runStartGame r sender a s).1.roundEligible = 0 ∧
    (∀ guess : Bool,
      (submitGuess guess true sender (runStartGame r sender a s).1
        (runStartGame r sender a s).2).isOk = true ∧
      (runSubmitGuess guess true sender (runStartGame r sender a s).1
          (runStartGame r sender a s).2).2.val
        (runSubmitGuess guess true sender (runStartGame r sender a s).1
          (runStartGame r sender a s).2).1.lastReward = 0) := by
  obtain ⟨sok, sact, _, _, sbal, selig, _, _, _, swf, _, _, _, _, _⟩ :=
    startGame_ok r sender a s hwf hIdle
  have hnot : ¬ (PLAY_COST ≤ s.val a.balance) := by omega
  rw [if_neg hnot] at sbal
  rw [if_neg hnot] at selig
  refine ⟨sok, sbal, selig, ?_⟩
  intro guess
  obtain ⟨gok, _, _, _, greward, _, _, _, _, _, _, _, _, _, _⟩ :=
    submitGuess_ok guess sender (runStartGame r sender a s).1
      (runStartGame r sender a s).2 swf sact
  rw [selig] at greward
  rw [if_neg (by simp)] at greward
  exact ⟨gok, greward⟩

/-- Claim C2 witness: the fresh account (sentinel balance 0 < 100) plays
a free, ineligible round that pays nothing. -/
theorem startGame_insufficient_funds_safe_witness :
    (startGame 2 9 Account.init Fhe.init).isOk = true ∧
    (runStartGame 2 9 Account.init Fhe.init).2.val
      (runStartGame 2 9 Account.init Fhe.init).1.balance =
        Fhe.init.val Account.init.balance ∧
    (runStartGame 2 9 Account.init Fhe.init).2.val
      (runStartGame 2 9 Account.init Fhe.init).1.roundEligible = 0 ∧
    (submitGuess true true 9 (runStartGame 2 9 Account.init Fhe.init).1
      (runStartGame 2 9 Account.init Fhe.init).2).isOk = true ∧
    (runSubmitGuess true true 9 (runStartGame 2 9 Account.init Fhe.init).1
        (runStartGame 2 9 Account.init Fhe.init).2).2.val
      (runSubmitGuess true true 9 (runStartGame 2 9 Account.init Fhe.init).1
        (runStartGame 2 9 Account.init Fhe.init).2).1.lastReward = 0 := by
  obtain ⟨h1, h2, h3, h4⟩ :=
    startGame_insufficient_funds_safe 2 9 Account.init Fhe.init (by decide) rfl (by decide)
  exact ⟨h1, h2, h3, (h4 true).1, (h4 true).2⟩

/-- Claim C8: a successful round start stores a dice plaintext equal to
the bounded draw plus one, lying in `[1, 6]`, with no 8-bit overflow. -/
theorem startGame_roll_in_range (r sender : Nat) (a : Account) (s : Fhe)
    (hwf : a.wf s) (hIdle : a.gameActive = false) :
    (startGame r sender a s).isOk = true ∧
    (runStartGame r sender a s).2.val (runStartGame r sender a s).1.lastRoll =
      r % 6 + 1 ∧
    1 ≤ (runStartGame r sender a s).2.val (runStartGame r sender a s).1.lastRoll ∧
    (runStartGame r sender a s).2.val (runStartGame r sender a s).1.lastRoll ≤ 6 := by
  obtain ⟨hok, _, _, _, _, _, hroll, _, _, _, _, _, _, _, _⟩ :=
    startGame_ok r sender a s hwf hIdle
  refine ⟨hok, hroll, ?_, ?_⟩ <;> rw [hroll] <;> omega

/-- Claim C8 witness: with randomness oracle 9 the stored roll is 4. -/
theorem startGame_roll_in_range_witness :
    (startGame 9 5 Account.init Fhe.init).isOk = true ∧
    (runStartGame 9 5 Account.init Fhe.init).2.val
      (runStartGame 9 5 Account.init Fhe.init).1.lastRoll = 9 % 6 + 1 := by
  obtain ⟨hok, hroll, _, _⟩ := startGame_roll_in_range 9 5 Account.init Fhe.init (by decide) rfl
  exact ⟨hok, hroll⟩

/-- Claim C10: a successful round start leaves the `lastOutcome` and
`lastReward` handles and their plaintexts untouched, so the previous
resolution stays readable while the round is pending. -/
theorem startGame_preserves_last_resolution (r sender : Nat) (a : Account) (s : Fhe)
    (hwf : a.wf s) (hIdle : a.gameActive = false) :
    (startGame r sender a s).isOk = true ∧
    (runStartGame r sender a s).1.lastOutcome = a.lastOutcome ∧
    (runStartGame r sender a s).1.lastReward = a.lastReward ∧
    (runStartGame r sender a s).2.val (runStartGame r sender a s).1.lastOutcome =
      s.val a.lastOutcome ∧
    (runStartGame r sender a s).2.val (runStartGame r sender a s).1.lastReward =
      s.val a.lastReward := by
  obtain ⟨hok, _, hoh, hwh, _, _, _, hpres, _, _, _, _, _, _, _⟩ :=
    startGame_ok r sender a s hwf hIdle
  refine ⟨hok, hoh, hwh, ?_, ?_⟩
  · rw [hoh]; exact hpres _ hwf.2.2.1
  · rw [hwh]; exact hpres _ hwf.2.2.2.1

/-- Claim C10 witness: concrete account with a recorded previous
resolution; both fields survive a new round start. -/
theorem startGame_preserves_last_resolution_witness :
    (startGame 1 6 (⟨0, 0, 1, 2, 0, false⟩ : Account)
      (⟨3, fun h => if h = 1 then 1 else if h = 2 then 1000 else 0, [], []⟩ : Fhe)).isOk
      = true ∧
    (runStartGame 1 6 (⟨0, 0, 1, 2, 0, false⟩ : Account)
        (⟨3, fun h => if h = 1 then 1 else if h = 2 then 1000 else 0, [], []⟩ : Fhe)).2.val
      (runStartGame 1 6 (⟨0, 0, 1, 2, 0, false⟩ : Account)
        (⟨3, fun h => if h = 1 then 1 else if h = 2 then 1000 else 0, [], []⟩ : Fhe)).1.lastReward
      = 1000 := by
  obtain ⟨hok, _, _, _, hrw⟩ := startGame_preserves_last_resolution 1 6
    (⟨0, 0, 1, 2, 0, false⟩ : Account)
    (⟨3, fun h => if h = 1 then 1 else if h = 2 then 1000 else 0, [], []⟩ : Fhe)
    (by decide) rfl
  exact ⟨hok, hrw⟩

/-- Claim C3 counterexample: with a balance plaintext at the top of the
64-bit domain, funding one more point succeeds but the homomorphic
64-bit addition wraps, so the decrypted balance afterwards is `0`, not
the exact sum `balance_before + points = 2 ^ 64`. -/
theorem buyPoints_exact_conservation_cex :
    (buyPoints (10 ^ 12) 5 Account.init (⟨1, fun _ => two64 - 1, [], []⟩ : Fhe)).isOk
      = true ∧
    10 ^ 12 * POINTS_PER_ETH / weiPerEth = 1 ∧
    (runBuyPoints (10 ^ 12) 5 Account.init (⟨1, fun _ => two64 - 1, [], []⟩ : Fhe)).2.val
      (runBuyPoints (10 ^ 12) 5 Account.init
        (⟨1, fun _ => two64 - 1, [], []⟩ : Fhe)).1.balance = 0 ∧
    Fhe.val (⟨1, fun _ => two64 - 1, [], []⟩ : Fhe) Account.init.balance +
      10 ^ 12 * POINTS_PER_ETH / weiPerEth = two64 ∧
    (0 : Nat) ≠ two64 := by
  decide

/-- Claim C3 (amended): for `e > 0`, `buyPoints` fails with
`AmountTooSmall` when `points = 0`, with `PointsOverflow` when `points`
exceeds the 64-bit domain, and otherwise succeeds with the decrypted
balance equal to `(before + points) mod 2 ^ 64` — exactly `before +
points` whenever that sum fits in 64 bits. -/
theorem buyPoints_conservation_mod (msgValue sender : Nat) (a : Account) (s : Fhe)
    (hwf : a.wf s) (hpos : 0 < msgValue) :
    (msgValue * POINTS_PER_ETH / weiPerEth = 0 →
      buyPoints msgValue sender a s = .error .amountTooSmall) ∧
    (two64 - 1 < msgValue * POINTS_PER_ETH / weiPerEth →
      buyPoints msgValue sender a s = .error .pointsOverflow) ∧
    (¬ msgValue * POINTS_PER_ETH / weiPerEth = 0 →
      ¬ two64 - 1 < msgValue * POINTS_PER_ETH / weiPerEth →
      (buyPoints msgValue sender a s).isOk = true ∧
      (runBuyPoints msgValue sender a s).2.val (runBuyPoints msgValue sender a s).1.balance =
        (s.val a.balance + msgValue * POINTS_PER_ETH / weiPerEth) % two64 ∧
      (s.val a.balance + msgValue * POINTS_PER_ETH / weiPerEth < two64 →
        (runBuyPoints msgValue sender a s).2.val
            (runBuyPoints msgValue sender a s).1.balance =
          s.val a.balance + msgValue * POINTS_PER_ETH / weiPerEth)) := by
  have h0 : ¬ msgValue = 0 := by omega
  refine ⟨?_, ?_, ?_⟩
  · intro hp
    simp [buyPoints, h0, hp]
  · intro ho
    have hp : ¬ msgValue * POINTS_PER_ETH / weiPerEth = 0 := by
      intro h
      rw [h] at ho
      exact absurd ho (by decide)
    simp [buyPoints, h0, hp, ho]
  · intro hp ho
    obtain ⟨hok, _, _, _, _, _, hbal, _, _, _, _, _⟩ :=
      buyPoints_ok msgValue sender a s hwf h0 hp ho
    refine ⟨hok, hbal, ?_⟩
    intro hfit
    rw [hbal, Nat.mod_eq_of_lt hfit]

/-- Claim C3 amended witness: funding one ETH credits exactly a million
points to the fresh account. -/
theorem buyPoints_conservation_mod_witness :
    (buyPoints (10 ^ 18) 4 Account.init Fhe.init).isOk = true ∧
    (runBuyPoints (10 ^ 18) 4 Account.init Fhe.init).2.val
      (runBuyPoints (10 ^ 18) 4 Account.init Fhe.init).1.balance =
        Fhe.init.val Account.init.balance + 10 ^ 18 * POINTS_PER_ETH / weiPerEth := by
  obtain ⟨_, _, hmain⟩ :=
    buyPoints_conservation_mod (10 ^ 18) 4 Account.init Fhe.init (by decide) (by decide)
  obtain ⟨hok, _, hexact⟩ := hmain (by decide) (by decide)
  exact ⟨hok, hexact (by decide)⟩

/-- Claim C4 counterexample: after a successful `startGame` on a fresh
account, the stored `roundEligible` handle has no decryption grant for
the calling account — the source only calls `allowThis` on it. -/
theorem startGame_roundEligible_user_grant_cex :
    (startGame 0 5 Account.init Fhe.init).isOk = true ∧
    ¬ (runStartGame 0 5 Account.init Fhe.init).2.grantedUser
        (runStartGame 0 5 Account.init Fhe.init).1.roundEligible 5 := by
  decide

/-- Claim C4 (amended): every ciphertext handle stored by a successfully
returning transition carries a grant for the contract; every such handle
except `roundEligible` also carries a grant for the acting account;
`roundEligible` (written by `startGame`) carries only the contract
grant. -/
theorem transition_grants :
    (∀ msgValue sender : Nat, ∀ a : Account, ∀ s : Fhe, a.wf s →
      (buyPoints msgValue sender a s).isOk = true →
      (runBuyPoints msgValue sender a s).2.grantedThis
        (runBuyPoints msgValue sender a s).1.balance ∧
      (runBuyPoints msgValue sender a s).2.grantedUser
        (runBuyPoints msgValue sender a s).1.balance sender) ∧
    (∀ r sender : Nat, ∀ a : Account, ∀ s : Fhe, a.wf s → a.gameActive = false →
      (runStartGame r sender a s).2.grantedThis
        (runStartGame r sender a s).1.balance ∧
      (runStartGame r sender a s).2.grantedUser
        (runStartGame r sender a s).1.balance sender ∧
      (runStartGame r sender a s).2.grantedThis
        (runStartGame r sender a s).1.roundEligible ∧
      (runStartGame r sender a s).2.grantedThis
        (runStartGame r sender a s).1.lastRoll ∧
      (runStartGame r sender a s).2.grantedUser
        (runStartGame r sender a s).1.lastRoll sender) ∧
    (∀ guess : Bool, ∀ sender : Nat, ∀ a : Account, ∀ s : Fhe, a.wf s →
      a.gameActive = true →
      (runSubmitGuess guess true sender a s).2.grantedThis
        (runSubmitGuess guess true sender a s).1.balance ∧
      (runSubmitGuess guess true sender a s).2.grantedUser
        (runSubmitGuess guess true sender a s).1.balance sender ∧
      (runSubmitGuess guess true sender a s).2.grantedThis
        (runSubmitGuess guess true sender a s).1.lastOutcome ∧
      (runSubmitGuess guess true sender a s).2.grantedUser
        (runSubmitGuess guess true sender a s).1.lastOutcome sender ∧
      (runSubmitGuess guess true sender a s).2.grantedThis
        (runSubmitGuess guess true sender a s).1.lastReward ∧
      (runSubmitGuess guess true sender a s).2.grantedUser
        (runSubmitGuess guess true sender a s).1.lastReward sender) := by
  refine ⟨?_, ?_, ?_⟩
  · intro msgValue sender a s hwf hok
    by_cases h0 : msgValue = 0
    · simp [buyPoints, h0, Except.isOk, Except.toBool] at hok
    by_cases hp : msgValue * POINTS_PER_ETH / weiPerEth = 0
    · simp [buyPoints, h0, hp, Except.isOk, Except.toBool] at hok
    by_cases ho : two64 - 1 < msgValue * POINTS_PER_ETH / weiPerEth
    · simp [buyPoints, h0, hp, ho, Except.isOk, Except.toBool] at hok
    obtain ⟨_, _, _, _, _, _, _, _, _, _, g1, g2⟩ :=
      buyPoints_ok msgValue sender a s hwf h0 hp ho
    exact ⟨g1, g2⟩
  · intro r sender a s hwf hIdle
    obtain ⟨_, _, _, _, _, _, _, _, _, _, g1, g2, g3, g4, g5⟩ :=
      startGame_ok r sender a s hwf hIdle
    exact ⟨g1, g2, g3, g4, g5⟩
  · intro guess sender a s hwf hActive
    obtain ⟨_, _, _, _, _, _, _, _, _, g1, g2, g3, g4, g5, g6⟩ :=
      submitGuess_ok guess sender a s hwf hActive
    exact ⟨g1, g2, g3, g4, g5, g6⟩

/-- Claim C4 amended witness: the three transitions run on concrete
states leave the stated grants in place. -/
theorem transition_grants_witness :
    ((runBuyPoints (10 ^ 18) 5 Account.init Fhe.init).2.grantedThis
        (runBuyPoints (10 ^ 18) 5 Account.init Fhe.init).1.balance ∧
      (runBuyPoints (10 ^ 18) 5 Account.init Fhe.init).2.grantedUser
        (runBuyPoints (10 ^ 18) 5 Account.init Fhe.init).1.balance 5) ∧
    ((runStartGame 0 5 Account.init Fhe.init).2.grantedThis
        (runStartGame 0 5 Account.init Fhe.init).1.balance ∧
      (runStartGame 0 5 Account.init Fhe.init).2.grantedUser
        (runStartGame 0 5 Account.init Fhe.init).1.balance 5 ∧
      (runStartGame 0 5 Account.init Fhe.init).2.grantedThis
        (runStartGame 0 5 Account.init Fhe.init).1.roundEligible ∧
      (runStartGame 0 5 Account.init Fhe.init).2.grantedThis
        (runStartGame 0 5 Account.init Fhe.init).1.lastRoll ∧
      (runStartGame 0 5 Account.init Fhe.init).2.grantedUser
        (runStartGame 0 5 Account.init Fhe.init).1.lastRoll 5) ∧
    ((runSubmitGuess true true 5 (⟨0, 0, 0, 0, 0, true⟩ : Account) Fhe.init).2.grantedThis
        (runSubmitGuess true true 5 (⟨0, 0, 0, 0, 0, true⟩ : Account) Fhe.init).1.balance ∧
      (runSubmitGuess true true 5 (⟨0, 0, 0, 0, 0, true⟩ : Account) Fhe.init).2.grantedUser
        (runSubmitGuess true true 5 (⟨0, 0, 0, 0, 0, true⟩ : Account) Fhe.init).1.balance 5 ∧
      (runSubmitGuess true true 5 (⟨0, 0, 0, 0, 0, true⟩ : Account) Fhe.init).2.grantedThis
        (runSubmitGuess true true 5 (⟨0, 0, 0, 0, 0, true⟩ : Account) Fhe.init).1.lastOutcome ∧
      (runSubmitGuess true true 5 (⟨0, 0, 0, 0, 0, true⟩ : Account) Fhe.init).2.grantedUser
        (runSubmitGuess true true 5 (⟨0, 0, 0, 0, 0, true⟩ : Account) Fhe.init).1.lastOutcome 5 ∧
      (runSubmitGuess true true 5 (⟨0, 0, 0, 0, 0, true⟩ : Account) Fhe.init).2.grantedThis
        (runSubmitGuess true true 5 (⟨0, 0, 0, 0, 0, true⟩ : Account) Fhe.init).1.lastReward ∧
      (runSubmitGuess true true 5 (⟨0, 0, 0, 0, 0, true⟩ : Account) Fhe.init).2.grantedUser
        (runSubmitGuess true true 5 (⟨0, 0, 0, 0, 0, true⟩ : Account) Fhe.init).1.lastReward 5) := by
  exact ⟨transition_grants.1 (10 ^ 18) 5 Account.init Fhe.init (by decide) (by decide),
    transition_grants.2.1 0 5 Account.init Fhe.init (by decide) rfl,
    transition_grants.2.2 true 5 (⟨0, 0, 0, 0, 0, true⟩ : Account) Fhe.init (by decide) rfl⟩

/-- Claim C5 counterexample: a `submitGuess` whose input proof fails
reverts the whole transaction, so the round is NOT marked inactive — the
flag is still `true` after the failed call, contrary to the claimed
consumed-attempt behaviour. -/
theorem submitGuess_invalid_proof_cex :
    submitGuess true false 5 (⟨0, 0, 0, 0, 0, true⟩ : Account) Fhe.init =
      .error .invalidProof ∧
    (runSubmitGuess true false 5 (⟨0, 0, 0, 0, 0, true⟩ : Account) Fhe.init).1.gameActive
      = true := by
  exact ⟨rfl, rfl⟩

/-- Claim C5 (amended): a `submitGuess` with a failing input proof fails
closed with `InvalidProof` and commits nothing at all — the entire
transaction reverts, so `roundActive` remains `true` and the pending
round can be retried with a corrected proof. -/
theorem submitGuess_invalid_proof_reverts (guess : Bool) (sender : Nat) (a : Account)
    (s : Fhe) (hActive : a.gameActive = true) :
    submitGuess guess false sender a s = .error .invalidProof ∧
    runSubmitGuess guess false sender a s = (a, s) := by
  constructor <;> simp [submitGuess, runSubmitGuess, hActive]

/-- Claim C5 amended witness: concrete pending round, failing proof. -/
theorem submitGuess_invalid_proof_reverts_witness :
    submitGuess false false 3 (⟨0, 0, 0, 0, 0, true⟩ : Account) Fhe.init =
      .error .invalidProof ∧
    runSubmitGuess false false 3 (⟨0, 0, 0, 0, 0, true⟩ : Account) Fhe.init =
      ((⟨0, 0, 0, 0, 0, true⟩ : Account), Fhe.init) := by
  exact submitGuess_invalid_proof_reverts false 3 (⟨0, 0, 0, 0, 0, true⟩ : Account)
    Fhe.init rfl

/-- Claim C6: starting a round while one is active fails with
`RoundAlreadyActive` and changes nothing, and resolving without an
active round fails with `NoActiveRound` and changes nothing. -/
theorem no_double_round :
    (∀ r sender : Nat, ∀ a : Account, ∀ s : Fhe, a.gameActive = true →
      startGame r sender a s = .error .gameAlreadyActive ∧
      runStartGame r sender a s = (a, s)) ∧
    (∀ g p : Bool, ∀ sender : Nat, ∀ a : Account, ∀ s : Fhe, a.gameActive = false →
      submitGuess g p sender a s = .error .noActiveGame ∧
      runSubmitGuess g p sender a s = (a, s)) := by
  constructor
  · intro r sender a s h
    constructor <;> simp [startGame, runStartGame, h]
  · intro g p sender a s h
    constructor <;> simp [submitGuess, runSubmitGuess, h]

/-- Claim C6 witness: concrete double start and concrete resolution in
the Idle state. -/
theorem no_double_round_witness :
    (startGame 3 8 (⟨0, 0, 0, 0, 0, true⟩ : Account) Fhe.init =
      .error .gameAlreadyActive ∧
    runStartGame 3 8 (⟨0, 0, 0, 0, 0, true⟩ : Account) Fhe.init =
      ((⟨0, 0, 0, 0, 0, true⟩ : Account), Fhe.init)) ∧
    (submitGuess true true 8 Account.init Fhe.init = .error .noActiveGame ∧
    runSubmitGuess true true 8 Account.init Fhe.init = (Account.init, Fhe.init)) := by
  exact ⟨no_double_round.1 3 8 (⟨0, 0, 0, 0, 0, true⟩ : Account) Fhe.init rfl,
    no_double_round.2 true true 8 Account.init Fhe.init rfl⟩

/-- Claim C7: refreshing an account whose four readable handles are all
sentinel yields balance 0, absent roll, absent outcome, reward 0 with no
decrypt request; in every refresh the sentinel is filtered out of the
batch, every non-sentinel handle is in the batch, and each non-sentinel
field is mapped through the service response. -/
theorem refreshPlayerData_sentinel_spec :
    (∀ prev : PlayerView, ∀ resp : Nat → Option Nat,
      refreshPlayerData prev 0 0 0 0 resp = (⟨0, none, none, 0⟩, none)) ∧
    (∀ hb hr ho hw : Nat, 0 ∉ handlesToDecrypt hb hr ho hw ∧
      ∀ h : Nat, h ∈ [hb, hr, ho, hw] → h ≠ 0 → h ∈ handlesToDecrypt hb hr ho hw) ∧
    (∀ prev : PlayerView, ∀ resp : Nat → Option Nat, ∀ hb hr ho hw : Nat,
      (refreshPlayerData prev hb hr ho hw resp).2 =
        if (handlesToDecrypt hb hr ho hw).isEmpty then none
        else some (handlesToDecrypt hb hr ho hw)) ∧
    (∀ prev : PlayerView, ∀ resp : Nat → Option Nat, ∀ hb hr ho hw : Nat, hb ≠ 0 →
      (refreshPlayerData prev hb hr ho hw resp).1.balance = (resp hb).getD 0) ∧
    (∀ prev : PlayerView, ∀ resp : Nat → Option Nat, ∀ hb hr ho hw : Nat, hr ≠ 0 →
      (refreshPlayerData prev hb hr ho hw resp).1.lastRoll = resp hr) ∧
    (∀ prev : PlayerView, ∀ resp : Nat → Option Nat, ∀ hb hr ho hw v : Nat, ho ≠ 0 →
      resp ho = some v →
      (refreshPlayerData prev hb hr ho hw resp).1.lastOutcome = some (decide (v = 1))) ∧
    (∀ prev : PlayerView, ∀ resp : Nat → Option Nat, ∀ hb hr ho hw : Nat, hw ≠ 0 →
      (refreshPlayerData prev hb hr ho hw resp).1.lastReward = (resp hw).getD 0) := by
  refine ⟨?_, ?_, ?_, ?_, ?_, ?_, ?_⟩
  · intro prev resp
    rfl
  · intro hb hr ho hw
    constructor
    · simp [handlesToDecrypt, List.mem_filter]
    · intro h hmem hne
      exact mem_handlesToDecrypt hb hr ho hw h hmem hne
  · intro prev resp hb hr ho hw
    by_cases hcase : (handlesToDecrypt hb hr ho hw).isEmpty = true <;>
      simp [refreshPlayerData, hcase]
  · intro prev resp hb hr ho hw hne
    have hfull := handlesToDecrypt_not_empty hb hr ho hw hb (by simp) hne
    simp [refreshPlayerData, hfull, hne]
  · intro prev resp hb hr ho hw hne
    have hfull := handlesToDecrypt_not_empty hb hr ho hw hr (by simp) hne
    simp [refreshPlayerData, hfull, hne]
  · intro prev resp hb hr ho hw v hne hresp
    have hfull := handlesToDecrypt_not_empty hb hr ho hw ho (by simp) hne
    simp [refreshPlayerData, hfull, hne, hresp]
  · intro prev resp hb hr ho hw hne
    have hfull := handlesToDecrypt_not_empty hb hr ho hw hw (by simp) hne
    simp [refreshPlayerData, hfull, hne]

/-- Claim C7 witness: concrete refreshes — an all-sentinel account, and a
fully populated account mapped through a concrete response. -/
theorem refreshPlayerData_sentinel_spec_witness :
    refreshPlayerData ⟨7, some 3, some true, 9⟩ 0 0 0 0 (fun _ => some 4) =
      (⟨0, none, none, 0⟩, none) ∧
    0 ∉ handlesToDecrypt 1 0 2 0 ∧
    2 ∈ handlesToDecrypt 1 0 2 0 ∧
    (refreshPlayerData ⟨0, none, none, 0⟩ 1 2 3 4 (fun h => some (h + 10))).1.balance =
      ((fun h => some (h + 10)) 1).getD 0 ∧
    (refreshPlayerData ⟨0, none, none, 0⟩ 1 2 3 4 (fun h => some (h + 10))).1.lastRoll =
      (fun h => some (h + 10)) 2 ∧
    (refreshPlayerData ⟨0, none, none, 0⟩ 1 2 3 4 (fun h => some (h + 10))).1.lastOutcome =
      some (decide ((13 : Nat) = 1)) ∧
    (refreshPlayerData ⟨0, none, none, 0⟩ 1 2 3 4 (fun h => some (h + 10))).1.lastReward =
      ((fun h => some (h + 10)) 4).getD 0 := by
  obtain ⟨w1, w2, _, w4, w5, w6, w7⟩ := refreshPlayerData_sentinel_spec
  exact ⟨w1 ⟨7, some 3, some true, 9⟩ (fun _ => some 4),
    (w2 1 0 2 0).1,
    (w2 1 0 2 0).2 2 (by simp) (by decide),
    w4 ⟨0, none, none, 0⟩ (fun h => some (h + 10)) 1 2 3 4 (by decide),
    w5 ⟨0, none, none, 0⟩ (fun h => some (h + 10)) 1 2 3 4 (by decide),
    w6 ⟨0, none, none, 0⟩ (fun h => some (h + 10)) 1 2 3 4 13 (by decide) rfl,
    w7 ⟨0, none, none, 0⟩ (fun h => some (h + 10)) 1 2 3 4 (by decide)⟩

/-- Claim C9: `buyPoints` — successful or reverted — never touches the
round flag nor the `lastRoll`, `lastOutcome`, `lastReward`,
`roundEligible` handles, and leaves the plaintext behind every
pre-existing handle unchanged: it modifies only the balance. -/
theorem buyPoints_frame (msgValue sender : Nat) (a : Account) (s : Fhe) :
    (runBuyPoints msgValue sender a s).1.lastRoll = a.lastRoll ∧
    (runBuyPoints msgValue sender a s).1.lastOutcome = a.lastOutcome ∧
    (runBuyPoints msgValue sender a s).1.lastReward = a.lastReward ∧
    (runBuyPoints msgValue sender a s).1.roundEligible = a.roundEligible ∧
    (runBuyPoints msgValue sender a s).1.gameActive = a.gameActive ∧
    (∀ x, x < s.next → (runBuyPoints msgValue sender a s).2.val x = s.val x) := by
  by_cases h0 : msgValue = 0
  · simp [runBuyPoints, buyPoints, h0]
  by_cases hp : msgValue * POINTS_PER_ETH / weiPerEth = 0
  · simp [runBuyPoints, buyPoints, h0, hp]
  by_cases ho : two64 - 1 < msgValue * POINTS_PER_ETH / weiPerEth
  · simp [runBuyPoints, buyPoints, h0, hp, ho]
  have hpres : ∀ x, x < s.next → (runBuyPoints msgValue sender a s).2.val x = s.val x := by
    intro x hx
    have hx1 : ¬ x = s.next := by omega
    have hx2 : ¬ x = s.next + 1 := by omega
    simp [buyPoints, runBuyPoints, h0, hp, ho,
      Fhe.asEuint64, Fhe.add64, Fhe.alloc, Fhe.val, Fhe.allowThis, Fhe.allow, hx1, hx2]
  refine ⟨?_, ?_, ?_, ?_, ?_, hpres⟩ <;>
    simp [runBuyPoints, buyPoints, h0, hp, ho,
      Fhe.asEuint64, Fhe.add64, Fhe.alloc, Fhe.val, Fhe.allowThis, Fhe.allow]

/-- Claim C9 witness: a concrete purchase leaves every non-balance field
and the sentinel plaintext untouched. -/
theorem buyPoints_frame_witness :
    (runBuyPoints (10 ^ 18) 5 Account.init Fhe.init).1.lastRoll = Account.init.lastRoll ∧
    (runBuyPoints (10 ^ 18) 5 Account.init Fhe.init).1.gameActive =
      Account.init.gameActive ∧
    (runBuyPoints (10 ^ 18) 5 Account.init Fhe.init).2.val 0 = Fhe.init.val 0 := by
  obtain ⟨h1, _, _, _, h5, h6⟩ := buyPoints_frame (10 ^ 18) 5 Account.init Fhe.init
  exact ⟨h1, h5, h6 0 (by decide)⟩

end PrivyPlay
